import Mathlib

/-!
Verification of the IPTV stream checker (`main.py`).

Strings from the program are modelled as `List Char`.  External effects
(socket system calls, the receive outcome) are modelled by an explicit
environment `ProbeEnv` describing how the outside world answers each call,
and the probe returns a `ProbeResult` trace recording its verdict together
with the observable actions it performed (sockets opened and closed,
multicast joins attempted, dummy packets sent, whether a non-timeout
exception was raised, and whether the legacy code block executed).
-/

namespace IPTV

/-- Outcome of one `recvfrom` call: a timeout, a non-timeout exception,
or a datagram of `len` bytes (`len = 0` is an empty datagram). -/
inductive RecvOutcome where
  | timeout : RecvOutcome
  | err : RecvOutcome
  | data : Nat → RecvOutcome
deriving DecidableEq, Repr

/-- How the outside world answers each system call made by
`check_udp_stream`: a `true` flag means that call raises an exception.
Fields with an `l` name answer the calls of the legacy block
(lines 111-165 of `main.py`). -/
structure ProbeEnv where
  sockErr : Bool
  reuseErr : Bool
  bindErr : Bool
  joinErr : Bool
  recv : RecvOutcome
  lSockErr : Bool
  lReuseErr : Bool
  lBindErr : Bool
  lJoinErr : Bool
  lSendErr : Bool
  lRecv : RecvOutcome
deriving DecidableEq, Repr

/-- Trace of one `check_udp_stream` invocation: the truthiness of the
returned value plus the observable actions performed. -/
structure ProbeResult where
  active : Bool
  opened : Nat
  closed : Nat
  joins : Nat
  sends : Nat
  errored : Bool
  legacyExecuted : Bool
deriving DecidableEq, Repr

/-- Source `main.py` lines 71-76: `host.startswith('224.') or ... or host.startswith('239.')`. -/
def is_multicast (host : List Char) : Bool :=
  List.isPrefixOf ['2', '2', '4', '.'] host || List.isPrefixOf ['2', '2', '5', '.'] host ||
  List.isPrefixOf ['2', '2', '6', '.'] host || List.isPrefixOf ['2', '2', '7', '.'] host ||
  List.isPrefixOf ['2', '2', '8', '.'] host || List.isPrefixOf ['2', '2', '9', '.'] host ||
  List.isPrefixOf ['2', '3', '0', '.'] host || List.isPrefixOf ['2', '3', '1', '.'] host ||
  List.isPrefixOf ['2', '3', '2', '.'] host || List.isPrefixOf ['2', '3', '3', '.'] host ||
  List.isPrefixOf ['2', '3', '4', '.'] host || List.isPrefixOf ['2', '3', '5', '.'] host ||
  List.isPrefixOf ['2', '3', '6', '.'] host || List.isPrefixOf ['2', '3', '7', '.'] host ||
  List.isPrefixOf ['2', '3', '8', '.'] host || List.isPrefixOf ['2', '3', '9', '.'] host

/-- Source `main.py` line 117 (legacy block): `host.startswith('2')`. -/
def legacy_is_multicast (host : List Char) : Bool :=
  List.isPrefixOf ['2'] host

/-- Legacy block, after its socket was created and its timeout set
(`main.py` lines 117-161): classify, bind (with reuse and group join when
classified multicast), then optionally send a dummy packet and receive.
`j` is the number of joins made so far by this block (always 0 here, kept
explicit to mirror accumulation). -/
def legacy_after_bind (require_data : Bool) (env : ProbeEnv) (j : Nat) : ProbeResult :=
  if require_data then
    if env.lSendErr then
      { active := false, opened := 1, closed := 1, joins := j, sends := 1,
        errored := true, legacyExecuted := true }
    else
      match env.lRecv with
      | .timeout =>
        { active := false, opened := 1, closed := 1, joins := j, sends := 1,
          errored := false, legacyExecuted := true }
      | .err =>
        { active := false, opened := 1, closed := 1, joins := j, sends := 1,
          errored := true, legacyExecuted := true }
      | .data 0 =>
        { active := false, opened := 1, closed := 1, joins := j, sends := 1,
          errored := false, legacyExecuted := true }
      | .data (_ + 1) =>
        { active := true, opened := 1, closed := 1, joins := j, sends := 1,
          errored := false, legacyExecuted := true }
  else
    { active := true, opened := 1, closed := 1, joins := j, sends := 0,
      errored := false, legacyExecuted := true }

/-- The legacy block of `check_udp_stream` (`main.py` lines 111-165),
reached when the first block falls through.  All exceptions are caught and
yield `False`; the socket, once created, is closed in the `finally`. -/
def legacy_probe (host : List Char) (require_data : Bool) (env : ProbeEnv) : ProbeResult :=
  if env.lSockErr then
    { active := false, opened := 0, closed := 0, joins := 0, sends := 0,
      errored := true, legacyExecuted := true }
  else if legacy_is_multicast host then
    if env.lReuseErr then
      { active := false, opened := 1, closed := 1, joins := 0, sends := 0,
        errored := true, legacyExecuted := true }
    else if env.lBindErr then
      { active := false, opened := 1, closed := 1, joins := 0, sends := 0,
        errored := true, legacyExecuted := true }
    else if env.lJoinErr then
      { active := false, opened := 1, closed := 1, joins := 1, sends := 0,
        errored := true, legacyExecuted := true }
    else
      legacy_after_bind require_data env 1
  else
    if env.lBindErr then
      { active := false, opened := 1, closed := 1, joins := 0, sends := 0,
        errored := true, legacyExecuted := true }
    else
      legacy_after_bind require_data env 0

/-- Combine the first block's trace (one socket opened and closed, `j0`
joins, no error) with the legacy block's trace when the first block falls
through to it. -/
def withLegacy (j0 : Nat) (r : ProbeResult) : ProbeResult :=
  { active := r.active, opened := 1 + r.opened, closed := 1 + r.closed,
    joins := j0 + r.joins, sends := r.sends, errored := r.errored,
    legacyExecuted := true }

/-- The probe `check_udp_stream` (`main.py` lines 64-165).  First block: create the
socket, set reuse, bind, join the group when `is_multicast`, then either
declare liveness on bind success (`require_data = false`) or wait for a
datagram.  A non-empty datagram returns `True`, a timeout returns `False`,
any other exception returns `False`; an *empty* datagram hits no `return`,
so control falls through the `finally` into the legacy block. -/
def check_udp_stream (host : List Char) (_port : Nat) (_timeout : Nat)
    (require_data : Bool) (env : ProbeEnv) : ProbeResult :=
  if env.sockErr then
    { active := false, opened := 0, closed := 0, joins := 0, sends := 0,
      errored := true, legacyExecuted := false }
  else if env.reuseErr then
    { active := false, opened := 1, closed := 1, joins := 0, sends := 0,
      errored := true, legacyExecuted := false }
  else if env.bindErr then
    { active := false, opened := 1, closed := 1, joins := 0, sends := 0,
      errored := true, legacyExecuted := false }
  else if is_multicast host && env.joinErr then
    { active := false, opened := 1, closed := 1, joins := 1, sends := 0,
      errored := true, legacyExecuted := false }
  else
    let j0 : Nat := if is_multicast host then 1 else 0
    if require_data then
      match env.recv with
      | .timeout =>
        { active := false, opened := 1, closed := 1, joins := j0, sends := 0,
          errored := false, legacyExecuted := false }
      | .err =>
        { active := false, opened := 1, closed := 1, joins := j0, sends := 0,
          errored := true, legacyExecuted := false }
      | .data 0 => withLegacy j0 (legacy_probe host require_data env)
      | .data (_ + 1) =>
        { active := true, opened := 1, closed := 1, joins := j0, sends := 0,
          errored := false, legacyExecuted := false }
    else
      { active := true, opened := 1, closed := 1, joins := j0, sends := 0,
        errored := false, legacyExecuted := false }

/-! ## Locator parsing -/

/-- The components `urlparse` hands back to `parse_udp_url`: the scheme,
the optional hostname, and the `.port` property, whose *access* may itself
raise (`.error`) for a non-numeric or out-of-range port, or return no port
(`.ok none`), or return a number. -/
structure UrlParts where
  scheme : List Char
  hostname : Option (List Char)
  port : Except Unit (Option Nat)

/-- The parser `parse_udp_url` (`main.py` lines 49-62): reject a non-`udp` scheme,
reject a raising or absent port, reject an absent or empty host and a
port of `0` (both falsy in `if not host or not port`); every rejection is
caught by the surrounding `except` and surfaces as `(None, None)`,
modelled as `none`. -/
def parse_udp_url (u : UrlParts) : Option (List Char × Nat) :=
  if u.scheme = "udp".toList then
    match u.port with
    | .error _ => none
    | .ok pOpt =>
      match u.hostname, pOpt with
      | some h, some p => if h = [] ∨ p = 0 then none else some (h, p)
      | some _, none => none
      | none, _ => none
  else none

/-! ## Batch checking -/

/-- The three status strings `check_channels` stores in its report. -/
inductive Status where
  | ACTIVE : Status
  | INACTIVE : Status
  | INVALID : Status
deriving DecidableEq, Repr, Inhabited

/-- One report entry: the `{'status': ..., 'error': ...}` dict value. -/
structure StreamResult where
  status : Status
  error : Option (List Char)
deriving DecidableEq, Repr, Inhabited

/-- The `results` dict, as an insertion-ordered association list. -/
abbrev Report := List (List Char × StreamResult)

/-- Python dict assignment `d[k] = v`: update in place if the key exists,
otherwise append at the end. -/
def dictSet : Report → List Char → StreamResult → Report
  | [], k, v => [(k, v)]
  | (k', v') :: t, k, v => if k' = k then (k, v) :: t else (k', v') :: dictSet t k v

/-- The error string `'No response or timeout'`. -/
def noResponse : List Char := "No response or timeout".toList

/-- The error string `'Invalid URL'`. -/
def invalidUrlMsg : List Char := "Invalid URL".toList

/-- State threaded through `check_channels`: the report, the
`down_streams` list, and counters for probe invocations and
`time.sleep` calls. -/
structure RetryState where
  results : Report
  down : List (List Char × List Char)
  probes : Nat
  sleeps : Nat
deriving DecidableEq, Repr

/-- The retry loop of `check_channels` (`main.py` lines 179-190).
`p attempt` is the truthiness of the probe's return value on the given
attempt; `remaining` counts the iterations left (`attempt + remaining` is
the constant `retry_attempts`).  On success the loop records `ACTIVE` and
breaks; on failure it records `INACTIVE`, then sleeps if more attempts
remain and otherwise appends the stream to `down_streams`. -/
def retryLoop (p : Nat → Bool) (url : List Char) :
    Nat → Nat → RetryState → RetryState
  | _, 0, st => st
  | attempt, r + 1, st =>
    if p attempt then
      { st with results := dictSet st.results url ⟨.ACTIVE, none⟩,
                probes := st.probes + 1 }
    else
      let st' : RetryState :=
        { st with results := dictSet st.results url ⟨.INACTIVE, some noResponse⟩,
                  probes := st.probes + 1 }
      if r = 0 then
        { st' with down := st'.down ++ [(url, noResponse)] }
      else
        retryLoop p url (attempt + 1) r { st' with sleeps := st'.sleeps + 1 }

/-- One stream of the input batch: the url string used as report key, the
components `urlparse` yields for it, and the world's answers to the
probe's system calls on each attempt. -/
structure StreamInput where
  url : List Char
  parts : UrlParts
  envs : Nat → ProbeEnv

/-- Truthiness of `check_udp_stream(host, port, timeout, require_data)`
for stream `s` on a given attempt. -/
def probeOutcome (timeout : Nat) (require_data : Bool) (s : StreamInput)
    (host : List Char) (port : Nat) : Nat → Bool :=
  fun attempt => (check_udp_stream host port timeout require_data (s.envs attempt)).active

/-- The per-stream loop of `check_channels` (`main.py` lines 172-190):
a stream whose locator fails to parse is recorded `INVALID` and appended
to `down_streams` without any probe invocation (`continue`); otherwise
the retry loop runs. -/
def check_channels_loop (timeout retry_attempts retry_delay : Nat)
    (require_data : Bool) : List StreamInput → RetryState → RetryState
  | [], st => st
  | s :: rest, st =>
    match parse_udp_url s.parts with
    | none =>
      check_channels_loop timeout retry_attempts retry_delay require_data rest
        { st with results := dictSet st.results s.url ⟨.INVALID, some invalidUrlMsg⟩,
                  down := st.down ++ [(s.url, invalidUrlMsg)] }
    | some (host, port) =>
      check_channels_loop timeout retry_attempts retry_delay require_data rest
        (retryLoop (probeOutcome timeout require_data s host port) s.url 0 retry_attempts st)

/-- The single alert message built at `main.py` lines 194-196: a header
followed by one `- url: error` line per down stream. -/
def alertMessage (down : List (List Char × List Char)) : List Char :=
  "🚨 IPTV Stream Alert 🚨\nThe following streams are DOWN:\n".toList ++
    (down.map (fun p => "- ".toList ++ p.1 ++ ": ".toList ++ p.2 ++ "\n".toList)).flatten

/-- Full outcome of one `check_channels` call: the returned report, the
down-stream list, the probe/sleep counters, and the messages handed to
`send_telegram_message` (the Notifier). -/
structure BatchResult where
  results : Report
  down : List (List Char × List Char)
  probes : Nat
  sleeps : Nat
  alerts : List (List Char)

/-- The batch checker `check_channels` (`main.py` lines 167-199): process every stream,
then send exactly one alert message when `down_streams` is non-empty and
none otherwise. -/
def check_channels (streams : List StreamInput)
    (timeout retry_attempts retry_delay : Nat) (require_data : Bool) : BatchResult :=
  let st := check_channels_loop timeout retry_attempts retry_delay require_data
    streams ⟨[], [], 0, 0⟩
  { results := st.results, down := st.down, probes := st.probes, sleeps := st.sleeps,
    alerts := if st.down = [] then [] else [alertMessage st.down] }

/-! ## Canonical dotted-quad rendering (for stating the multicast claims) -/

/-- Decimal digit character. -/
def digitChar (n : Nat) : Char := Char.ofNat (48 + n)

/-- Decimal rendering of one octet (canonical: no leading zeros),
matching Python's `str(int)` for values below 1000. -/
def octetChars (n : Nat) : List Char :=
  if n < 10 then [digitChar n]
  else if n < 100 then [digitChar (n / 10), digitChar (n % 10)]
  else [digitChar (n / 100), digitChar (n / 10 % 10), digitChar (n % 10)]

/-- Canonical dotted-quad IPv4 literal `a.b.c.d`. -/
def dottedQuad (a b c d : Nat) : List Char :=
  octetChars a ++ '.' :: (octetChars b ++ '.' :: (octetChars c ++ '.' :: octetChars d))

/-! ## Dictionary lemmas -/

theorem dictSet_keys_of_mem {d : Report} {k : List Char} (v : StreamResult)
    (h : k ∈ d.map Prod.fst) :
    (dictSet d k v).map Prod.fst = d.map Prod.fst := by
  induction d with
  | nil => simp only [List.map_nil] at h; cases h
  | cons hd tl ih =>
    rcases hd with ⟨k', v'⟩
    by_cases hk : k' = k
    · subst hk
      simp [dictSet]
    · simp only [List.map_cons, List.mem_cons] at h
      rcases h with h | h
      · exact absurd h.symm hk
      · simp [dictSet, hk, ih h]

theorem mem_keys_dictSet (d : Report) (k : List Char) (v : StreamResult) :
    k ∈ (dictSet d k v).map Prod.fst := by
  induction d with
  | nil => simp [dictSet]
  | cons hd tl ih =>
    rcases hd with ⟨k', v'⟩
    by_cases hk : k' = k
    · subst hk
      simp [dictSet]
    · simp [dictSet, hk, ih]

theorem dictSet_dictSet (d : Report) (k : List Char) (v w : StreamResult) :
    dictSet (dictSet d k v) k w = dictSet d k w := by
  induction d with
  | nil => simp [dictSet]
  | cons hd tl ih =>
    rcases hd with ⟨k', v'⟩
    by_cases hk : k' = k
    · subst hk
      simp [dictSet]
    · simp [dictSet, hk, ih]

theorem dictSet_of_not_mem {d : Report} {k : List Char} (v : StreamResult)
    (h : k ∉ d.map Prod.fst) :
    dictSet d k v = d ++ [(k, v)] := by
  induction d with
  | nil => simp [dictSet]
  | cons hd tl ih =>
    rcases hd with ⟨k', v'⟩
    simp only [List.map_cons, List.mem_cons] at h
    push_neg at h
    have h1 : ¬ k' = k := fun hk => h.1 hk.symm
    simp [dictSet, h1, ih h.2]

/-! ## Retry-loop lemmas -/

/-- One-step unfolding of `retryLoop` for a positive remaining count. -/
theorem retryLoop_succ (p : Nat → Bool) (url : List Char)
    (attempt r : Nat) (st : RetryState) :
    retryLoop p url attempt (r + 1) st =
      if p attempt then
        { st with results := dictSet st.results url ⟨.ACTIVE, none⟩,
                  probes := st.probes + 1 }
      else if r = 0 then
        { results := dictSet st.results url ⟨.INACTIVE, some noResponse⟩,
          down := st.down ++ [(url, noResponse)],
          probes := st.probes + 1, sleeps := st.sleeps }
      else
        retryLoop p url (attempt + 1) r
          { results := dictSet st.results url ⟨.INACTIVE, some noResponse⟩,
            down := st.down, probes := st.probes + 1, sleeps := st.sleeps + 1 } := by
  rfl

theorem retry_all_fail_aux (p : Nat → Bool) (url : List Char) :
    ∀ (r attempt : Nat) (st : RetryState),
      (∀ k, k < r + 1 → p (attempt + k) = false) →
      retryLoop p url attempt (r + 1) st =
        { results := dictSet st.results url ⟨.INACTIVE, some noResponse⟩,
          down := st.down ++ [(url, noResponse)],
          probes := st.probes + (r + 1),
          sleeps := st.sleeps + r } := by
  intro r
  induction r with
  | zero =>
    intro attempt st h
    have h0 : p attempt = false := by simpa using h 0 (by omega)
    simp [retryLoop_succ, h0, retryLoop]
  | succ r ih =>
    intro attempt st h
    have h0 : p attempt = false := by simpa using h 0 (by omega)
    have hstep := ih (attempt + 1)
      { results := dictSet st.results url ⟨.INACTIVE, some noResponse⟩,
        down := st.down, probes := st.probes + 1, sleeps := st.sleeps + 1 }
      (by
        intro k hk
        have := h (k + 1) (by omega)
        simpa [Nat.add_assoc, Nat.add_comm 1 k] using this)
    rw [retryLoop_succ, if_neg (by simp [h0]), if_neg (Nat.succ_ne_zero r), hstep]
    simp only [dictSet_dictSet, RetryState.mk.injEq]
    exact ⟨trivial, trivial, by omega, by omega⟩

theorem retry_success_aux (p : Nat → Bool) (url : List Char) :
    ∀ (k attempt r : Nat) (st : RetryState),
      k < r →
      (∀ j, j < k → p (attempt + j) = false) →
      p (attempt + k) = true →
      retryLoop p url attempt r st =
        { results := dictSet st.results url ⟨.ACTIVE, none⟩,
          down := st.down,
          probes := st.probes + (k + 1),
          sleeps := st.sleeps + k } := by
  intro k
  induction k with
  | zero =>
    intro attempt r st hk _ hsucc
    obtain ⟨r', rfl⟩ : ∃ r', r = r' + 1 := ⟨r - 1, by omega⟩
    have h0 : p attempt = true := by simpa using hsucc
    simp [retryLoop_succ, h0]
  | succ k ih =>
    intro attempt r st hk hfail hsucc
    obtain ⟨r', rfl⟩ : ∃ r', r = r' + 1 := ⟨r - 1, by omega⟩
    have h0 : p attempt = false := by simpa using hfail 0 (by omega)
    have hr' : r' ≠ 0 := by omega
    have hstep := ih (attempt + 1) r'
      { results := dictSet st.results url ⟨.INACTIVE, some noResponse⟩,
        down := st.down, probes := st.probes + 1, sleeps := st.sleeps + 1 }
      (by omega)
      (by
        intro j hj
        have := hfail (j + 1) (by omega)
        simpa [Nat.add_assoc, Nat.add_comm 1 j] using this)
      (by simpa [Nat.add_assoc, Nat.add_comm 1 k] using hsucc)
    rw [retryLoop_succ, if_neg (by simp [h0]), if_neg hr', hstep]
    simp only [dictSet_dictSet, RetryState.mk.injEq]
    exact ⟨trivial, trivial, by omega, by omega⟩

/-! ## Claims C3 and C4: the retry controller -/

/-- Helper: the retry loop when every attempt fails. -/
theorem retryLoop_all_fail (p : Nat → Bool) (url : List Char)
    (attempts : Nat) (st : RetryState) (h1 : 1 ≤ attempts)
    (h : ∀ k, k < attempts → p k = false) :
    retryLoop p url 0 attempts st =
      { results := dictSet st.results url ⟨.INACTIVE, some noResponse⟩,
        down := st.down ++ [(url, noResponse)],
        probes := st.probes + attempts,
        sleeps := st.sleeps + (attempts - 1) } := by
  obtain ⟨r, rfl⟩ : ∃ r, attempts = r + 1 := ⟨attempts - 1, by omega⟩
  have := retry_all_fail_aux p url r 0 st (by intro k hk; simpa using h k hk)
  simpa using this

/-- C3: for a stream whose probe attempts all fail, the retry loop of
`check_channels` performs exactly `attempts` probe invocations and exactly
`attempts - 1` inter-attempt delays, and records the final status
`INACTIVE` with the detail string `'No response or timeout'`, appending
the stream to the down list. -/
theorem retry_all_attempts_fail (p : Nat → Bool) (url : List Char)
    (attempts : Nat) (st : RetryState) (h1 : 1 ≤ attempts)
    (h : ∀ k, k < attempts → p k = false) :
    retryLoop p url 0 attempts st =
      { results := dictSet st.results url ⟨.INACTIVE, some noResponse⟩,
        down := st.down ++ [(url, noResponse)],
        probes := st.probes + attempts,
        sleeps := st.sleeps + (attempts - 1) } :=
  retryLoop_all_fail p url attempts st h1 h

/-- Witness for `retry_all_attempts_fail` at `attempts = 2` with an
always-failing probe. -/
theorem retry_all_attempts_fail_witness :
    retryLoop (fun _ => false) ("udp://239.1.1.1:5000".toList) 0 2 ⟨[], [], 0, 0⟩ =
      { results := [(("udp://239.1.1.1:5000".toList), ⟨.INACTIVE, some noResponse⟩)],
        down := [(("udp://239.1.1.1:5000".toList), noResponse)],
        probes := 2, sleeps := 1 } :=
  retry_all_attempts_fail (fun _ => false) ("udp://239.1.1.1:5000".toList) 2
    ⟨[], [], 0, 0⟩ (by decide) (fun _ _ => rfl)

/-- Helper: the retry loop when the first success is attempt `k`. -/
theorem retryLoop_first_success (p : Nat → Bool) (url : List Char)
    (attempts k : Nat) (st : RetryState) (hk : k < attempts)
    (hfail : ∀ j, j < k → p j = false) (hsucc : p k = true) :
    retryLoop p url 0 attempts st =
      { results := dictSet st.results url ⟨.ACTIVE, none⟩,
        down := st.down,
        probes := st.probes + (k + 1),
        sleeps := st.sleeps + k } := by
  have := retry_success_aux p url k 0 attempts st hk
    (by intro j hj; simpa using hfail j hj) (by simpa using hsucc)
  simpa using this

/-- C4: if the probe first succeeds on attempt `k` (0-based, so the
`(k+1)`-st invocation), the retry loop records the final status `ACTIVE`,
performs exactly `k + 1` probe invocations (none after the success) and
exactly `k` delays (none after the success), and does not touch the down
list. -/
theorem retry_stops_on_first_success (p : Nat → Bool) (url : List Char)
    (attempts k : Nat) (st : RetryState) (hk : k < attempts)
    (hfail : ∀ j, j < k → p j = false) (hsucc : p k = true) :
    retryLoop p url 0 attempts st =
      { results := dictSet st.results url ⟨.ACTIVE, none⟩,
        down := st.down,
        probes := st.probes + (k + 1),
        sleeps := st.sleeps + k } :=
  retryLoop_first_success p url attempts k st hk hfail hsucc

/-- Witness for `retry_stops_on_first_success`: success on the second of
three attempts performs two probes and one delay. -/
theorem retry_stops_on_first_success_witness :
    retryLoop (fun k => decide (k = 1)) ("udp://239.1.1.1:5000".toList) 0 3 ⟨[], [], 0, 0⟩ =
      { results := [(("udp://239.1.1.1:5000".toList), ⟨.ACTIVE, none⟩)],
        down := [], probes := 2, sleeps := 1 } :=
  retry_stops_on_first_success (fun k => decide (k = 1)) ("udp://239.1.1.1:5000".toList)
    3 1 ⟨[], [], 0, 0⟩ (by decide) (by decide) (by decide)

/-! ## Claims C7 and C9: probe error handling and socket hygiene -/

theorem legacy_after_bind_closed (rd : Bool) (env : ProbeEnv) (j : Nat) :
    (legacy_after_bind rd env j).closed = (legacy_after_bind rd env j).opened := by
  unfold legacy_after_bind
  cases rd
  · rfl
  · cases env.lSendErr
    · cases env.lRecv with
      | timeout => rfl
      | err => rfl
      | data n => cases n <;> rfl
    · rfl

theorem legacy_probe_closed (host : List Char) (rd : Bool) (env : ProbeEnv) :
    (legacy_probe host rd env).closed = (legacy_probe host rd env).opened := by
  unfold legacy_probe
  split
  · rfl
  · split
    · split
      · rfl
      · split
        · rfl
        · split
          · rfl
          · exact legacy_after_bind_closed rd env 1
    · split
      · rfl
      · exact legacy_after_bind_closed rd env 0

/-- C9: on every exit path of a probe invocation — success, timeout, or
exception, including the fall-through into the legacy block — every
socket the probe opened is closed before the probe returns. -/
theorem probe_socket_balance (host : List Char) (port timeout : Nat)
    (rd : Bool) (env : ProbeEnv) :
    (check_udp_stream host port timeout rd env).closed =
      (check_udp_stream host port timeout rd env).opened := by
  rcases env with ⟨se, re, be, je, rv, lse, lre, lbe, lje, lsnd, lrv⟩
  cases hmc : is_multicast host <;> cases se <;> cases re <;> cases be <;>
    cases je <;> cases rd <;> rcases rv with _ | _ | (_ | n) <;>
    simp only [check_udp_stream, hmc] <;>
    first
      | rfl
      | exact congrArg (fun x => 1 + x) (legacy_probe_closed _ _ _)

theorem legacy_after_bind_fail_closed (rd : Bool) (env : ProbeEnv) (j : Nat)
    (h : (legacy_after_bind rd env j).errored = true) :
    (legacy_after_bind rd env j).active = false := by
  unfold legacy_after_bind at *
  cases rd
  · simp at h
  · revert h
    cases env.lSendErr
    · cases env.lRecv with
      | timeout => simp
      | err => simp
      | data n => cases n <;> simp
    · simp

theorem legacy_probe_fail_closed (host : List Char) (rd : Bool) (env : ProbeEnv)
    (h : (legacy_probe host rd env).errored = true) :
    (legacy_probe host rd env).active = false := by
  unfold legacy_probe at *
  revert h
  split
  · simp
  · split
    · split
      · simp
      · split
        · simp
        · split
          · simp
          · exact legacy_after_bind_fail_closed rd env 1
    · split
      · simp
      · exact legacy_after_bind_fail_closed rd env 0

/-- C7: any error arising during socket creation, option setting, bind,
group join, or receive that is not a plain receive timeout (recorded in
the trace as `errored = true`) yields the `Inactive` outcome for that
attempt: the probe's returned truthiness is `false`, never `Active`.  The
exception never escapes: `check_udp_stream` is a total function, so no
such error can abort the surrounding batch. -/
theorem probe_error_fail_closed (host : List Char) (port timeout : Nat)
    (rd : Bool) (env : ProbeEnv)
    (h : (check_udp_stream host port timeout rd env).errored = true) :
    (check_udp_stream host port timeout rd env).active = false := by
  revert h
  rcases env with ⟨se, re, be, je, rv, lse, lre, lbe, lje, lsnd, lrv⟩
  cases hmc : is_multicast host <;> cases se <;> cases re <;> cases be <;>
    cases je <;> cases rd <;> rcases rv with _ | _ | (_ | n) <;>
    simp only [check_udp_stream, hmc] <;>
    intro h <;>
    first
      | rfl
      | exact absurd h Bool.false_ne_true
      | exact legacy_probe_fail_closed _ _ _ h

/-- Witness for `probe_error_fail_closed`: a bind failure is recorded as
an error and the probe reports the stream inactive. -/
theorem probe_error_fail_closed_witness :
    (check_udp_stream ("239.1.1.1".toList) 5000 10 true
        ⟨false, false, true, false, .timeout, false, false, false, false, false, .timeout⟩).errored
      = true ∧
    (check_udp_stream ("239.1.1.1".toList) 5000 10 true
        ⟨false, false, true, false, .timeout, false, false, false, false, false, .timeout⟩).active
      = false :=
  ⟨by decide,
   probe_error_fail_closed ("239.1.1.1".toList) 5000 10 true
     ⟨false, false, true, false, .timeout, false, false, false, false, false, .timeout⟩
     (by decide)⟩

/-! ## Claim C6: locator parsing rejects invalid locators -/

/-- C6: for every locator whose scheme is not `udp`, or whose host is
missing or empty, or whose port is missing, zero, or whose port access
raises (non-numeric or out-of-range port), `parse_udp_url` returns `none`
(the `InvalidLocator` outcome).  The embedding is a total function into
`Option`, so the failure is always a classified result and never a fatal
condition for the caller. -/
theorem parse_rejects_invalid_locator (u : UrlParts)
    (h : u.scheme ≠ "udp".toList ∨ u.hostname = none ∨ u.hostname = some [] ∨
         u.port = .error () ∨ u.port = .ok none ∨ u.port = .ok (some 0)) :
    parse_udp_url u = none := by
  rcases u with ⟨sc, ho, po⟩
  simp only [parse_udp_url]
  rcases h with h | h | h | h | h | h
  · rw [if_neg h]
  · subst h
    split
    · rcases po with e | pOpt
      · rfl
      · cases pOpt <;> rfl
    · rfl
  · subst h
    split
    · rcases po with e | pOpt
      · rfl
      · cases pOpt with
        | none => rfl
        | some p => simp
    · rfl
  · subst h
    split <;> rfl
  · subst h
    split
    · cases ho <;> rfl
    · rfl
  · subst h
    split
    · cases ho <;> simp
    · rfl

/-- Witness for `parse_rejects_invalid_locator`: a locator with scheme
`http` parses to `none`. -/
theorem parse_rejects_invalid_locator_witness :
    "http".toList ≠ "udp".toList ∧
    parse_udp_url ⟨"http".toList, some "h".toList, .ok (some 5000)⟩ = none :=
  ⟨by decide,
   parse_rejects_invalid_locator ⟨"http".toList, some "h".toList, .ok (some 5000)⟩
     (Or.inl (by decide))⟩

/-! ## Claims C5 and C10: the reachable legacy block -/

/-- An environment in which every system call succeeds, the first block's
`recvfrom` returns an *empty* datagram, and the legacy block's `recvfrom`
then returns 188 bytes. -/
def emptyThenDataEnv : ProbeEnv :=
  ⟨false, false, false, false, .data 0, false, false, false, false, false, .data 188⟩

/-- C10 (code bug): on the failing input — `require_data = true` with the
first `recvfrom` returning an empty datagram — the superseded legacy
implementation *does* execute: the probe enters the legacy block, sends
its dummy packet, and returns `Active` from the legacy receive. -/
theorem legacy_block_executes_bug :
    (check_udp_stream (dottedQuad 239 1 1 1) 5000 10 true emptyThenDataEnv).legacyExecuted
        = true ∧
    (check_udp_stream (dottedQuad 239 1 1 1) 5000 10 true emptyThenDataEnv).sends = 1 ∧
    (check_udp_stream (dottedQuad 239 1 1 1) 5000 10 true emptyThenDataEnv).active = true := by
  decide

/-- C5 (code bug): `200.0.0.1` is a valid unicast dotted quad outside
224.0.0.0–239.255.255.255 (the primary classification `is_multicast`
rejects it), yet on the legacy fall-through path the probe attempts a
multicast group join for it, because the legacy block classifies any
host starting with `'2'` as multicast. -/
theorem join_attempted_outside_multicast_range_bug :
    is_multicast (dottedQuad 200 0 0 1) = false ∧
    ¬ (224 ≤ 200 ∧ 200 ≤ 239) ∧
    (check_udp_stream (dottedQuad 200 0 0 1) 5000 10 true emptyThenDataEnv).joins = 1 := by
  decide

/-! ## The batch checker: claims C1, C2, C8 -/

/-- The final per-stream result the retry loop records: `ACTIVE` when some
attempt among the first `attempts` succeeds, `INACTIVE` otherwise. -/
def retryVerdict (p : Nat → Bool) (attempts : Nat) : StreamResult :=
  if (List.range attempts).any p then ⟨.ACTIVE, none⟩
  else ⟨.INACTIVE, some noResponse⟩

/-- The final result `check_channels` records for one stream. -/
def streamVerdict (timeout attempts : Nat) (rd : Bool) (s : StreamInput) : StreamResult :=
  match parse_udp_url s.parts with
  | none => ⟨.INVALID, some invalidUrlMsg⟩
  | some (host, port) => retryVerdict (probeOutcome timeout rd s host port) attempts

/-- One-step unfolding of `check_channels_loop` on a non-empty batch. -/
theorem check_channels_loop_cons (t a d : Nat) (rd : Bool) (s : StreamInput)
    (rest : List StreamInput) (st : RetryState) :
    check_channels_loop t a d rd (s :: rest) st =
      match parse_udp_url s.parts with
      | none => check_channels_loop t a d rd rest
          { st with results := dictSet st.results s.url ⟨.INVALID, some invalidUrlMsg⟩,
                    down := st.down ++ [(s.url, invalidUrlMsg)] }
      | some (host, port) => check_channels_loop t a d rd rest
          (retryLoop (probeOutcome t rd s host port) s.url 0 a st) := by
  rfl

/-- With at least one attempt, the retry loop sets the stream's report
entry to its `retryVerdict` and appends the stream to the down list
exactly when no attempt succeeds. -/
theorem retryLoop_verdict (p : Nat → Bool) (url : List Char) (attempts : Nat)
    (st : RetryState) (h1 : 1 ≤ attempts) :
    (retryLoop p url 0 attempts st).results =
      dictSet st.results url (retryVerdict p attempts) ∧
    (retryLoop p url 0 attempts st).down =
      st.down ++ (if (List.range attempts).any p then [] else [(url, noResponse)]) := by
  by_cases hx : ∃ k, k < attempts ∧ p k = true
  · have hany : (List.range attempts).any p = true := by
      rcases hx with ⟨k, hk, hp⟩
      exact List.any_eq_true.mpr ⟨k, List.mem_range.mpr hk, hp⟩
    have hex : ∃ k, p k = true := by
      rcases hx with ⟨k, _, hp⟩
      exact ⟨k, hp⟩
    have hk0 : Nat.find hex < attempts := by
      rcases hx with ⟨k, hk, hp⟩
      exact lt_of_le_of_lt (Nat.find_min' hex hp) hk
    have hmin : ∀ j, j < Nat.find hex → p j = false := by
      intro j hj
      have := Nat.find_min hex hj
      exact Bool.not_eq_true _ ▸ Bool.of_not_eq_true this
    have hrun := retryLoop_first_success p url attempts (Nat.find hex) st hk0
      hmin (Nat.find_spec hex)
    rw [hrun]
    simp [retryVerdict, hany]
  · push_neg at hx
    have hall : ∀ k, k < attempts → p k = false := by
      intro k hk
      exact Bool.of_not_eq_true (hx k hk)
    have hany : (List.range attempts).any p = false := by
      rw [List.any_eq_false]
      intro k hk
      simp [hall k (List.mem_range.mp hk)]
    have hrun := retryLoop_all_fail p url attempts st h1 hall
    rw [hrun]
    simp [retryVerdict, hany]

/-- Master lemma for `check_channels_loop`: when every stream url is
fresh and the urls are pairwise distinct, the loop appends one report
entry per stream, in input order, carrying the stream's `streamVerdict`,
and appends one down entry per stream whose verdict is not `ACTIVE`. -/
theorem loop_spec (t a d : Nat) (rd : Bool) (h1 : 1 ≤ a) :
    ∀ (streams : List StreamInput) (st : RetryState),
      (∀ s ∈ streams, s.url ∉ st.results.map Prod.fst) →
      (streams.map StreamInput.url).Nodup →
      (check_channels_loop t a d rd streams st).results =
        st.results ++ streams.map (fun s => (s.url, streamVerdict t a rd s)) ∧
      (check_channels_loop t a d rd streams st).down =
        st.down ++ (streams.filter
            (fun s => (streamVerdict t a rd s).status != Status.ACTIVE)).map
          (fun s => (s.url, (streamVerdict t a rd s).error.getD [])) := by
  intro streams
  induction streams with
  | nil =>
    intro st _ _
    simp [check_channels_loop]
  | cons s rest ih =>
    intro st hfresh hnd
    have hsu : s.url ∉ rest.map StreamInput.url := (List.nodup_cons.mp hnd).1
    have hnd' : (rest.map StreamInput.url).Nodup := (List.nodup_cons.mp hnd).2
    have hfs : s.url ∉ st.results.map Prod.fst := hfresh s (List.mem_cons_self s rest)
    cases hparse : parse_udp_url s.parts with
    | none =>
      have hv : streamVerdict t a rd s = ⟨.INVALID, some invalidUrlMsg⟩ := by
        simp [streamVerdict, hparse]
      have hset : dictSet st.results s.url ⟨.INVALID, some invalidUrlMsg⟩ =
          st.results ++ [(s.url, ⟨.INVALID, some invalidUrlMsg⟩)] :=
        dictSet_of_not_mem _ hfs
      have hfresh' : ∀ s' ∈ rest,
          s'.url ∉ (st.results ++ [(s.url, (⟨.INVALID, some invalidUrlMsg⟩ : StreamResult))]).map
            Prod.fst := by
        intro s' hs'
        rw [List.map_append]
        simp only [List.mem_append, List.map_cons, List.map_nil, List.mem_singleton,
          List.mem_cons, not_or]
        refine ⟨hfresh s' (List.mem_cons_of_mem _ hs'), ?_, by simp⟩
        intro heq
        exact hsu (heq ▸ List.mem_map_of_mem StreamInput.url hs')
      rw [check_channels_loop_cons, hparse]
      have ihre := ih { st with results := dictSet st.results s.url ⟨.INVALID, some invalidUrlMsg⟩,
                                down := st.down ++ [(s.url, invalidUrlMsg)] }
        (by simpa [hset] using hfresh') hnd'
      constructor
      · rw [ihre.1]
        simp [hset, hv]
      · rw [ihre.2]
        simp [hv]
    | some hp =>
      rcases hp with ⟨host, port⟩
      have hv : streamVerdict t a rd s = retryVerdict (probeOutcome t rd s host port) a := by
        simp [streamVerdict, hparse]
      have hloop := retryLoop_verdict (probeOutcome t rd s host port) s.url a st h1
      have hset : dictSet st.results s.url (retryVerdict (probeOutcome t rd s host port) a) =
          st.results ++ [(s.url, retryVerdict (probeOutcome t rd s host port) a)] :=
        dictSet_of_not_mem _ hfs
      have hfresh' : ∀ s' ∈ rest,
          s'.url ∉ (retryLoop (probeOutcome t rd s host port) s.url 0 a st).results.map
            Prod.fst := by
        intro s' hs'
        rw [hloop.1, hset, List.map_append]
        simp only [List.mem_append, List.map_cons, List.map_nil, List.mem_singleton,
          List.mem_cons, not_or]
        refine ⟨hfresh s' (List.mem_cons_of_mem _ hs'), ?_, by simp⟩
        intro heq
        exact hsu (heq ▸ List.mem_map_of_mem StreamInput.url hs')
      rw [check_channels_loop_cons, hparse]
      have ihre := ih (retryLoop (probeOutcome t rd s host port) s.url 0 a st) hfresh' hnd'
      constructor
      · rw [ihre.1, hloop.1, hset]
        simp [hv]
      · rw [ihre.2, hloop.2]
        by_cases hany : (List.range a).any (probeOutcome t rd s host port) = true
        · have hva : streamVerdict t a rd s = ⟨.ACTIVE, none⟩ := by
            rw [hv]
            simp [retryVerdict, hany]
          simp [hany, hva]
        · have hanyf : (List.range a).any (probeOutcome t rd s host port) = false :=
            Bool.of_not_eq_true hany
          have hva : streamVerdict t a rd s = ⟨.INACTIVE, some noResponse⟩ := by
            rw [hv]
            simp [retryVerdict, hanyf]
          simp [hanyf, hva]

/-- C1: with at least one retry attempt and pairwise-distinct stream urls
(the spec makes names unique within a batch), `check_channels` returns a
report with exactly one entry per input stream — none missing, none
duplicated — whose key sequence is exactly the input url sequence. -/
theorem checkAll_report_keys (streams : List StreamInput) (t a d : Nat) (rd : Bool)
    (h1 : 1 ≤ a) (hnd : (streams.map StreamInput.url).Nodup) :
    (check_channels streams t a d rd).results.map Prod.fst =
      streams.map StreamInput.url := by
  have h := (loop_spec t a d rd h1 streams ⟨[], [], 0, 0⟩ (by simp) hnd).1
  have hre : (check_channels streams t a d rd).results =
      (check_channels_loop t a d rd streams ⟨[], [], 0, 0⟩).results := rfl
  rw [hre, h]
  simp [List.map_map, Function.comp]

/-- An environment in which every call succeeds and the first `recvfrom`
returns a 188-byte datagram, so the probe reports `Active` at once. -/
def allOkEnv : ProbeEnv :=
  ⟨false, false, false, false, .data 188, false, false, false, false, false, .data 188⟩

/-- A stream whose locator parses (multicast host, port 5000) and whose
probe finds data immediately. -/
def streamA : StreamInput :=
  ⟨"udp://239.1.1.1:5000".toList, ⟨"udp".toList, some "239.1.1.1".toList, .ok (some 5000)⟩,
    fun _ => allOkEnv⟩

/-- A stream whose locator fails to parse. -/
def streamB : StreamInput :=
  ⟨"not-a-url".toList, ⟨"".toList, none, .ok none⟩, fun _ => allOkEnv⟩

/-- Witness for `checkAll_report_keys` on a two-stream batch. -/
theorem checkAll_report_keys_witness :
    (1 : Nat) ≤ 2 ∧ ([streamA, streamB].map StreamInput.url).Nodup ∧
    (check_channels [streamA, streamB] 10 2 2 true).results.map Prod.fst =
      [streamA.url, streamB.url] :=
  ⟨by decide, by decide,
   checkAll_report_keys [streamA, streamB] 10 2 2 true (by decide) (by decide)⟩

/-- C2: the down list is exactly the report entries whose final status is
not `ACTIVE` (with their details); the Notifier is handed exactly one
message — the single alert enumerating every down stream — when that list
is non-empty and is not invoked at all otherwise, so an all-`ACTIVE`
batch produces zero Notifier invocations. -/
theorem alert_iff_down_nonempty (streams : List StreamInput) (t a d : Nat) (rd : Bool)
    (h1 : 1 ≤ a) (hnd : (streams.map StreamInput.url).Nodup) :
    (check_channels streams t a d rd).down =
      ((check_channels streams t a d rd).results.filter
          (fun e => e.2.status != Status.ACTIVE)).map
        (fun e => (e.1, e.2.error.getD [])) ∧
    (check_channels streams t a d rd).alerts =
      (if (check_channels streams t a d rd).down = [] then []
       else [alertMessage (check_channels streams t a d rd).down]) ∧
    ((check_channels streams t a d rd).alerts ≠ [] ↔
      ∃ e ∈ (check_channels streams t a d rd).results, e.2.status ≠ Status.ACTIVE) := by
  have h := loop_spec t a d rd h1 streams ⟨[], [], 0, 0⟩ (by simp) hnd
  have hres : (check_channels streams t a d rd).results =
      streams.map (fun s => (s.url, streamVerdict t a rd s)) := by
    have hre : (check_channels streams t a d rd).results =
        (check_channels_loop t a d rd streams ⟨[], [], 0, 0⟩).results := rfl
    rw [hre, h.1]
    simp
  have hdown : (check_channels streams t a d rd).down =
      (streams.filter (fun s => (streamVerdict t a rd s).status != Status.ACTIVE)).map
        (fun s => (s.url, (streamVerdict t a rd s).error.getD [])) := by
    have hdo : (check_channels streams t a d rd).down =
        (check_channels_loop t a d rd streams ⟨[], [], 0, 0⟩).down := rfl
    rw [hdo, h.2]
    simp
  have halerts : (check_channels streams t a d rd).alerts =
      (if (check_channels streams t a d rd).down = [] then []
       else [alertMessage (check_channels streams t a d rd).down]) := rfl
  refine ⟨?_, halerts, ?_⟩
  · rw [hres, hdown, List.filter_map, List.map_map]
    rfl
  · have hiff : (check_channels streams t a d rd).alerts ≠ [] ↔
        (check_channels streams t a d rd).down ≠ [] := by
      rw [halerts]
      by_cases hd : (check_channels streams t a d rd).down = [] <;> simp [hd]
    rw [hiff, hres, hdown]
    simp [List.mem_map]

/-- Witness for `alert_iff_down_nonempty` on a batch with one active and
one invalid stream. -/
theorem alert_iff_down_nonempty_witness :
    (1 : Nat) ≤ 2 ∧ ([streamA, streamB].map StreamInput.url).Nodup ∧
    ((check_channels [streamA, streamB] 10 2 2 true).down =
        ((check_channels [streamA, streamB] 10 2 2 true).results.filter
            (fun e => e.2.status != Status.ACTIVE)).map
          (fun e => (e.1, e.2.error.getD [])) ∧
      (check_channels [streamA, streamB] 10 2 2 true).alerts =
        (if (check_channels [streamA, streamB] 10 2 2 true).down = [] then []
         else [alertMessage (check_channels [streamA, streamB] 10 2 2 true).down]) ∧
      ((check_channels [streamA, streamB] 10 2 2 true).alerts ≠ [] ↔
        ∃ e ∈ (check_channels [streamA, streamB] 10 2 2 true).results,
          e.2.status ≠ Status.ACTIVE)) :=
  ⟨by decide, by decide,
   alert_iff_down_nonempty [streamA, streamB] 10 2 2 true (by decide) (by decide)⟩

/-- The retry loop never removes entries from the down list. -/
theorem retryLoop_down_mono (p : Nat → Bool) (url : List Char) :
    ∀ (r attempt : Nat) (st : RetryState) (e : List Char × List Char),
      e ∈ st.down → e ∈ (retryLoop p url attempt r st).down := by
  intro r
  induction r with
  | zero => intro attempt st e he; exact he
  | succ r ih =>
    intro attempt st e he
    rw [retryLoop_succ]
    by_cases hp : p attempt
    · rw [if_pos hp]
      exact he
    · rw [if_neg hp]
      by_cases hr : r = 0
      · rw [if_pos hr]
        exact List.mem_append_left _ he
      · rw [if_neg hr]
        exact ih (attempt + 1) _ e he

/-- The batch loop never removes entries from the down list. -/
theorem loop_down_mono (t a d : Nat) (rd : Bool) :
    ∀ (streams : List StreamInput) (st : RetryState) (e : List Char × List Char),
      e ∈ st.down → e ∈ (check_channels_loop t a d rd streams st).down := by
  intro streams
  induction streams with
  | nil => intro st e he; exact he
  | cons s rest ih =>
    intro st e he
    rw [check_channels_loop_cons]
    cases hparse : parse_udp_url s.parts with
    | none =>
      exact ih _ e (List.mem_append_left _ he)
    | some hp =>
      rcases hp with ⟨host, port⟩
      exact ih _ e (retryLoop_down_mono _ _ _ _ _ e he)

/-- C8: a stream whose locator fails to parse is recorded with status
`INVALID` and the detail string `'Invalid URL'`, is appended to the down
list (and stays there for the rest of the cycle), and causes no probe
invocation: the step leaves the probe counter untouched, and a
single-stream batch of it performs zero probes. -/
theorem invalid_locator_recorded (t a d : Nat) (rd : Bool) (s : StreamInput)
    (rest : List StreamInput) (st : RetryState)
    (h : parse_udp_url s.parts = none) :
    check_channels_loop t a d rd (s :: rest) st =
      check_channels_loop t a d rd rest
        { st with results := dictSet st.results s.url ⟨.INVALID, some invalidUrlMsg⟩,
                  down := st.down ++ [(s.url, invalidUrlMsg)] } ∧
    (s.url, invalidUrlMsg) ∈ (check_channels_loop t a d rd (s :: rest) st).down ∧
    (check_channels [s] t a d rd).probes = 0 := by
  have hstep : check_channels_loop t a d rd (s :: rest) st =
      check_channels_loop t a d rd rest
        { st with results := dictSet st.results s.url ⟨.INVALID, some invalidUrlMsg⟩,
                  down := st.down ++ [(s.url, invalidUrlMsg)] } := by
    rw [check_channels_loop_cons, h]
  refine ⟨hstep, ?_, ?_⟩
  · rw [hstep]
    apply loop_down_mono
    exact List.mem_append_right _ (by simp)
  · show (check_channels_loop t a d rd [s] ⟨[], [], 0, 0⟩).probes = 0
    rw [check_channels_loop_cons, h]
    rfl

/-- Witness for `invalid_locator_recorded` at the unparsable stream
`streamB`. -/
theorem invalid_locator_recorded_witness :
    parse_udp_url streamB.parts = none ∧
    (streamB.url, invalidUrlMsg) ∈
      (check_channels_loop 10 2 2 true [streamB] ⟨[], [], 0, 0⟩).down ∧
    (check_channels [streamB] 10 2 2 true).probes = 0 :=
  ⟨by decide,
   (invalid_locator_recorded 10 2 2 true streamB [] ⟨[], [], 0, 0⟩ (by decide)).2.1,
   (invalid_locator_recorded 10 2 2 true streamB [] ⟨[], [], 0, 0⟩ (by decide)).2.2⟩

/-! ## Supporting facts for C5: the primary classifier matches the
IPv4 multicast range on canonical dotted quads -/

set_option maxHeartbeats 2000000 in
/-- The primary classifier `is_multicast` accepts a canonical dotted-quad
rendering exactly when its first octet lies in 224–239, i.e. exactly the
IPv4 multicast range 224.0.0.0–239.255.255.255. -/
theorem is_multicast_iff_range (a : Nat) (ha : a ≤ 255) (rest : List Char) :
    is_multicast (octetChars a ++ '.' :: rest) = decide (224 ≤ a ∧ a ≤ 239) := by
  by_cases h10 : a < 10
  · have hs : is_multicast (digitChar a :: '.' :: rest) = false := by
      simp [is_multicast, List.isPrefixOf]
    rw [octetChars, if_pos h10]
    simp only [List.cons_append, List.nil_append]
    rw [hs]
    symm
    simp only [decide_eq_false_iff_not]
    omega
  · by_cases h100 : a < 100
    · have hs : is_multicast (digitChar (a / 10) :: digitChar (a % 10) :: '.' :: rest)
          = false := by
        simp [is_multicast, List.isPrefixOf]
      rw [octetChars, if_neg h10, if_pos h100]
      simp only [List.cons_append, List.nil_append]
      rw [hs]
      symm
      simp only [decide_eq_false_iff_not]
      omega
    · have h100' : 100 ≤ a := by omega
      interval_cases a <;>
        simp [octetChars, digitChar, is_multicast, List.isPrefixOf]

/-- On every execution that does not fall through into the legacy block
(socket creation, option setting and bind succeed, and the first receive
does not return an empty datagram), the probe attempts exactly one
multicast group join when the dotted-quad host lies in
224.0.0.0–239.255.255.255 and none otherwise — the behaviour claim C5
describes, which only the reachable legacy block violates. -/
theorem probe_joins_no_legacy (a b c d : Nat) (ha : a ≤ 255)
    (port timeout : Nat) (rd : Bool) (env : ProbeEnv)
    (hs : env.sockErr = false) (hr : env.reuseErr = false)
    (hb : env.bindErr = false) (hrecv : env.recv ≠ .data 0) :
    (check_udp_stream (dottedQuad a b c d) port timeout rd env).joins =
      if 224 ≤ a ∧ a ≤ 239 then 1 else 0 := by
  have hdq : dottedQuad a b c d =
      octetChars a ++ '.' :: (octetChars b ++ '.' :: (octetChars c ++ '.' :: octetChars d)) :=
    rfl
  have hmc := is_multicast_iff_range a ha
    (octetChars b ++ '.' :: (octetChars c ++ '.' :: octetChars d))
  rw [← hdq] at hmc
  rcases env with ⟨se, re, be, je, rv, lse, lre, lbe, lje, lsnd, lrv⟩
  simp only at hs hr hb hrecv
  subst hs hr hb
  by_cases hrange : 224 ≤ a ∧ a ≤ 239
  · have hm : is_multicast (dottedQuad a b c d) = true := by
      rw [hmc]
      simp [hrange]
    rw [if_pos hrange]
    cases je <;> cases rd <;>
      rcases hrv : rv with _ | _ | (_ | n) <;>
      simp_all [check_udp_stream, hm]
  · have hm : is_multicast (dottedQuad a b c d) = false := by
      rw [hmc]
      simp [hrange]
    rw [if_neg hrange]
    cases je <;> cases rd <;>
      rcases hrv : rv with _ | _ | (_ | n) <;>
      simp_all [check_udp_stream, hm]

end IPTV
